import Mathlib

/-!
Shallow embedding of `lib/sanitizer_common/sanitizer_symbolizer.h`.

Pointers returned by the dedicated internal allocator are modelled as natural
numbers, with `0` playing the role of the null pointer.  A `Heap` records which
pointers are currently allocated and the string stored behind each one;
`internal_strdup` allocates a fresh pointer and `InternalFree` releases one
(freeing the null pointer is a no-op, freeing a pointer that is not allocated
is the double-free error and is modelled by `none`).
-/

namespace Sanitizer

structure Heap where
  blocks : List (Nat × String)
  next : Nat
deriving DecidableEq, Repr

def Heap.lookup (h : Heap) (p : Nat) : Option String :=
  (h.blocks.find? (fun b => b.1 == p)).map (fun b => b.2)

def Heap.allocated (h : Heap) (p : Nat) : Bool :=
  (h.lookup p).isSome

/-- Well-formedness: every allocated pointer is nonzero and no larger than the
allocation counter `next`. -/
def Heap.wf (h : Heap) : Prop :=
  ∀ b ∈ h.blocks, b.1 ≠ 0 ∧ b.1 ≤ h.next

instance (h : Heap) : Decidable h.wf := by
  unfold Heap.wf; infer_instance

/-- `internal_strdup`: copies the string into a freshly allocated block and
returns the new pointer. -/
def internal_strdup (h : Heap) (s : String) : Heap × Nat :=
  (⟨(h.next + 1, s) :: h.blocks, h.next + 1⟩, h.next + 1)

/-- `InternalFree`: a no-op on the null pointer, releases an allocated block,
and is the double-free error (`none`) on anything else. -/
def InternalFree (h : Heap) (p : Nat) : Option Heap :=
  if p = 0 then some h
  else if h.allocated p then some ⟨h.blocks.filter (fun b => b.1 != p), h.next⟩
  else none

/-- `struct AddressInfo`: one resolved frame.  The `module`, `function` and
`file` fields are pointers into the internal-allocator heap. -/
structure AddressInfo where
  address : Nat
  module : Nat
  module_offset : Nat
  function : Nat
  file : Nat
  line : Int
  column : Int
deriving DecidableEq, Repr

/-- The `AddressInfo()` constructor: `internal_memset(this, 0, sizeof(AddressInfo))`. -/
def AddressInfo.init : AddressInfo := ⟨0, 0, 0, 0, 0, 0, 0⟩

/-- `AddressInfo::Clear`: frees `module`, `function` and `file` in that order,
then zeroes the whole record. -/
def AddressInfo.Clear (ai : AddressInfo) (h : Heap) : Option (AddressInfo × Heap) := do
  let h1 ← InternalFree h ai.module
  let h2 ← InternalFree h1 ai.function
  let h3 ← InternalFree h2 ai.file
  some (AddressInfo.init, h3)

/-- `AddressInfo::FillAddressAndModuleInfo`: sets `address`, duplicates the
module name with `internal_strdup` into `module`, and sets `module_offset`.
The argument `mod_name` is the caller's pointer to the module-name string. -/
def AddressInfo.FillAddressAndModuleInfo (ai : AddressInfo) (h : Heap)
    (addr : Nat) (mod_name : Nat) (mod_offset : Nat) : Option (AddressInfo × Heap) :=
  match h.lookup mod_name with
  | none => none
  | some s =>
    let r := internal_strdup h s
    some ({ ai with address := addr, module := r.2, module_offset := mod_offset }, r.1)

theorem find?_filter_ne (blocks : List (Nat × String)) (p q : Nat) (hq : q ≠ p) :
    (blocks.filter (fun b => b.1 != p)).find? (fun b => b.1 == q) =
      blocks.find? (fun b => b.1 == q) := by
  induction blocks with
  | nil => rfl
  | cons b bs ih =>
    have hpq : (p == q) = false := beq_eq_false_iff_ne.mpr (fun hh => hq hh.symm)
    rcases eq_or_ne b.1 p with hbp | hbp
    · have hbq : (b.1 == q) = false := by rw [hbp]; exact hpq
      have hbp2 : (b.1 != p) = false := by simp [hbp]
      simp [List.filter_cons, List.find?_cons, hbp2, hbq, ih, hq]
    · have hbp2 : (b.1 != p) = true := by simp [hbp]
      by_cases hbq : b.1 = q
      · simp [List.filter_cons, List.find?_cons, hbp2, hbq, hq]
      · simp [List.filter_cons, List.find?_cons, hbp2, hbq, ih, hq]

/-- Freeing a null or allocated pointer succeeds and leaves every other
pointer's allocation status unchanged. -/
theorem heap_free_other (h : Heap) (p : Nat)
    (hp : p = 0 ∨ h.allocated p = true) :
    ∃ h2, InternalFree h p = some h2 ∧
      (∀ q, q ≠ p → h2.allocated q = h.allocated q) ∧ h2.next = h.next := by
  rcases hp with hp | hp
  · exact ⟨h, by simp [InternalFree, hp], fun q _ => rfl, rfl⟩
  · by_cases h0 : p = 0
    · exact ⟨h, by simp [InternalFree, h0], fun q _ => rfl, rfl⟩
    · refine ⟨⟨h.blocks.filter (fun b => b.1 != p), h.next⟩, ?_, ?_, rfl⟩
      · simp [InternalFree, h0, hp]
      · intro q hq
        simp [Heap.allocated, Heap.lookup, find?_filter_ne h.blocks p q hq]

/-- Clearing the all-zero record frees only null pointers: it always succeeds
and changes nothing. -/
theorem clear_init (h : Heap) : AddressInfo.init.Clear h = some (AddressInfo.init, h) := rfl

/-- C2: for every `AddressInfo` whose string pointers are null or allocated
(and not aliased to one another, as `Clear` frees each of them), `Clear()`
succeeds, resets every field to zero/null, and a second `Clear()` on the
resulting record is safe: it frees only null pointers, leaving the heap and
the record unchanged (no double-free). -/
theorem addressInfo_clear_spec (ai : AddressInfo) (h : Heap)
    (hm : ai.module = 0 ∨ h.allocated ai.module = true)
    (hf : ai.function = 0 ∨ h.allocated ai.function = true)
    (hl : ai.file = 0 ∨ h.allocated ai.file = true)
    (hfm : ai.function = 0 ∨ ai.function ≠ ai.module)
    (hlm : ai.file = 0 ∨ ai.file ≠ ai.module)
    (hlf : ai.file = 0 ∨ ai.file ≠ ai.function) :
    ∃ h3, ai.Clear h = some (AddressInfo.init, h3) ∧
      AddressInfo.init.Clear h3 = some (AddressInfo.init, h3) := by
  obtain ⟨h1, e1, p1, _⟩ := heap_free_other h ai.module hm
  have hf1 : ai.function = 0 ∨ h1.allocated ai.function = true := by
    rcases hfm with hz | hne
    · exact Or.inl hz
    · rcases hf with hz | ha
      · exact Or.inl hz
      · exact Or.inr ((p1 ai.function hne).trans ha)
  obtain ⟨h2, e2, p2, _⟩ := heap_free_other h1 ai.function hf1
  have hl1 : ai.file = 0 ∨ h2.allocated ai.file = true := by
    rcases hlm with hz | hnem
    · exact Or.inl hz
    · rcases hlf with hz | hnef
      · exact Or.inl hz
      · rcases hl with hz | ha
        · exact Or.inl hz
        · exact Or.inr ((p2 ai.file hnef).trans ((p1 ai.file hnem).trans ha))
  obtain ⟨h3, e3, _, _⟩ := heap_free_other h2 ai.file hl1
  refine ⟨h3, ?_, clear_init h3⟩
  simp [AddressInfo.Clear, e1, e2, e3]

/-- Witness for C2 at a concrete record and heap. -/
theorem addressInfo_clear_spec_witness :
    ∃ h3, (AddressInfo.mk 5 1 7 2 3 4 6).Clear ⟨[(1, "m"), (2, "f"), (3, "g")], 3⟩ =
        some (AddressInfo.init, h3) ∧
      AddressInfo.init.Clear h3 = some (AddressInfo.init, h3) :=
  addressInfo_clear_spec (AddressInfo.mk 5 1 7 2 3 4 6) ⟨[(1, "m"), (2, "f"), (3, "g")], 3⟩
    (by decide) (by decide) (by decide) (by decide) (by decide) (by decide)

/-- C10: a default-constructed `AddressInfo` has every field zero/null, and
`Clear()` on such a never-filled record frees only null pointers: it succeeds
on any heap and leaves both the record and the heap unchanged. -/
theorem addressInfo_init_zero_clear_safe :
    AddressInfo.init.address = 0 ∧ AddressInfo.init.module = 0 ∧
    AddressInfo.init.module_offset = 0 ∧ AddressInfo.init.function = 0 ∧
    AddressInfo.init.file = 0 ∧ AddressInfo.init.line = 0 ∧
    AddressInfo.init.column = 0 ∧
    ∀ h : Heap, AddressInfo.init.Clear h = some (AddressInfo.init, h) :=
  ⟨rfl, rfl, rfl, rfl, rfl, rfl, rfl, clear_init⟩

/-- On a well-formed heap, any pointer holding a string is nonzero and at most
the allocation counter. -/
theorem lookup_some_le_next (h : Heap) (p : Nat) (s : String) (hwf : h.wf)
    (hs : h.lookup p = some s) : p ≠ 0 ∧ p ≤ h.next := by
  obtain ⟨b, hb⟩ : ∃ b, h.blocks.find? (fun b => b.1 == p) = some b := by
    rcases e : h.blocks.find? (fun b => b.1 == p) with _ | b
    · simp [Heap.lookup, e] at hs
    · exact ⟨b, e⟩
  have hmem := List.mem_of_find?_eq_some hb
  have hkey : b.1 = p := by simpa using List.find?_some hb
  have := hwf b hmem
  omega

/-- On a well-formed heap, the next pointer `internal_strdup` would hand out is
not currently allocated. -/
theorem lookup_fresh_none (h : Heap) (hwf : h.wf) : h.lookup (h.next + 1) = none := by
  rcases e : h.lookup (h.next + 1) with _ | s
  · rfl
  · have := lookup_some_le_next h (h.next + 1) s hwf e
    omega

/-- C9: `FillAddressAndModuleInfo(addr, mod_name, mod_offset)` sets `address`
to `addr` and `module_offset` to `mod_offset`, stores in `module` a freshly
allocated copy of the module-name string — a pointer distinct from the
caller's `mod_name` and from every previously allocated pointer — and leaves
`function`, `file`, `line` and `column` untouched. -/
theorem fillAddressAndModuleInfo_spec (ai : AddressInfo) (h : Heap)
    (addr mod_name mod_offset : Nat) (s : String)
    (hwf : h.wf) (hname : h.lookup mod_name = some s) :
    ∃ ai2 h2, ai.FillAddressAndModuleInfo h addr mod_name mod_offset = some (ai2, h2) ∧
      ai2.address = addr ∧ ai2.module_offset = mod_offset ∧
      h2.lookup ai2.module = some s ∧
      ai2.module ≠ mod_name ∧ h.allocated ai2.module = false ∧
      ai2.function = ai.function ∧ ai2.file = ai.file ∧
      ai2.line = ai.line ∧ ai2.column = ai.column := by
  refine ⟨{ ai with address := addr, module := h.next + 1, module_offset := mod_offset },
    ⟨(h.next + 1, s) :: h.blocks, h.next + 1⟩, ?_, rfl, rfl, ?_, ?_, ?_, rfl, rfl, rfl, rfl⟩
  · simp [AddressInfo.FillAddressAndModuleInfo, hname, internal_strdup]
  · show Heap.lookup _ (h.next + 1) = some s
    simp [Heap.lookup, List.find?_cons]
  · show h.next + 1 ≠ mod_name
    have := lookup_some_le_next h mod_name s hwf hname
    omega
  · show h.allocated (h.next + 1) = false
    simp [Heap.allocated, lookup_fresh_none h hwf]

/-- Witness for C9 at a concrete record, heap and module name. -/
theorem fillAddressAndModuleInfo_spec_witness :
    Heap.wf ⟨[(1, "app")], 1⟩ ∧
    ∃ ai2 h2, (AddressInfo.mk 0 0 0 9 8 7 6).FillAddressAndModuleInfo
        ⟨[(1, "app")], 1⟩ 4096 1 256 = some (ai2, h2) ∧
      ai2.address = 4096 ∧ ai2.module_offset = 256 ∧
      h2.lookup ai2.module = some "app" ∧
      ai2.module ≠ 1 ∧ Heap.allocated ⟨[(1, "app")], 1⟩ ai2.module = false ∧
      ai2.function = 9 ∧ ai2.file = 8 ∧ ai2.line = 7 ∧ ai2.column = 6 :=
  ⟨by decide, fillAddressAndModuleInfo_spec (AddressInfo.mk 0 0 0 9 8 7 6)
    ⟨[(1, "app")], 1⟩ 4096 1 256 "app" (by decide) (by decide)⟩

/-- `struct DataInfo`: one resolved data symbol.  String contents are carried
by value here, since no claim about `DataInfo` concerns pointer identity. -/
structure DataInfo where
  address : Nat
  module : String
  module_offset : Nat
  name : String
  start : Nat
  size : Nat
deriving DecidableEq, Repr

namespace Symbolizer

/-- The base-class body of `Symbolizer::SymbolizeCode`: `return 0;` — fills
nothing and reports zero frames. -/
def SymbolizeCode_default (address : Nat) (frames : List AddressInfo)
    (max_frames : Nat) : Nat × List AddressInfo :=
  (0, frames)

/-- The base-class body of `Symbolizer::SymbolizeData`: `return false;`. -/
def SymbolizeData_default (address : Nat) (info : DataInfo) : Bool × DataInfo :=
  (false, info)

/-- The base-class body of `Symbolizer::IsAvailable`: `return false;`. -/
def IsAvailable_default : Bool := false

/-- The base-class body of `Symbolizer::IsExternalAvailable`: `return false;`. -/
def IsExternalAvailable_default : Bool := false

/-- The base-class body of `Symbolizer::Demangle`: `return name;` — the input
pointer is handed back unchanged (`none` models a null `const char *`). -/
def Demangle_default (name : Option String) : Option String := name

/-- Modelled from the spec (the facade implementation is not under `src/`,
only its declaration): writing backend results into the caller's frame
buffer — at most `max_frames` consecutive entries are overwritten, the rest
of the buffer is untouched, and the number written is returned. -/
def fillFrames (buf : List AddressInfo) (resolved : List AddressInfo)
    (max_frames : Nat) : Nat × List AddressInfo :=
  let written := resolved.take max_frames
  (written.length, written ++ buf.drop written.length)

/-- Modelled from the spec: the facade `SymbolizeCode` queries the attached
backends in priority order until one returns at least one frame, fills up to
`max_frames` entries of the caller's buffer with that backend's frames
(innermost first), and returns how many were filled; `0` when every backend
finds nothing. -/
def SymbolizeCode (backends : List (Nat → List AddressInfo)) (address : Nat)
    (buf : List AddressInfo) (max_frames : Nat) : Nat × List AddressInfo :=
  match backends.find? (fun b => !(b address).isEmpty) with
  | some b => fillFrames buf (b address) max_frames
  | none => (0, buf)

/-- Modelled from the spec: a backend resolves a data address by finding the
owning symbol — an entry `(name, start, size)` of its symbol table with
`start <= address < start + size` — and filling a `DataInfo` from it. -/
def Backend.SymbolizeData (symbols : List (String × Nat × Nat))
    (address : Nat) : Option DataInfo :=
  (symbols.find? (fun sym => decide (sym.2.1 ≤ address ∧ address < sym.2.1 + sym.2.2))).map
    (fun sym => ⟨address, "", 0, sym.1, sym.2.1, sym.2.2⟩)

/-- Modelled from the spec: the facade `SymbolizeData` — the first backend
reporting a hit wins. -/
def SymbolizeData (backends : List (List (String × Nat × Nat)))
    (address : Nat) : Option DataInfo :=
  backends.findSome? (fun symbols => Backend.SymbolizeData symbols address)

/-- Modelled from the spec: the facade `IsAvailable` is true iff at least one
attached backend can service requests. -/
def IsAvailable (backendAvailable : List Bool) : Bool :=
  backendAvailable.any id

end Symbolizer

/-- C1: the default (no-backend / disabled) symbolizer is inert: for every
address and buffer, the base-class `SymbolizeCode` returns 0 and leaves the
buffer untouched, `SymbolizeData` returns false, and `IsAvailable()` is
false; likewise the facade with zero backends attached. -/
theorem disabled_symbolizer_inert (address : Nat) (frames : List AddressInfo)
    (max_frames : Nat) (info : DataInfo) :
    Symbolizer.SymbolizeCode_default address frames max_frames = (0, frames) ∧
    Symbolizer.SymbolizeData_default address info = (false, info) ∧
    Symbolizer.IsAvailable_default = false ∧
    Symbolizer.SymbolizeCode [] address frames max_frames = (0, frames) ∧
    Symbolizer.SymbolizeData [] address = none ∧
    Symbolizer.IsAvailable [] = false :=
  ⟨rfl, rfl, rfl, rfl, rfl, rfl⟩

/-- C3: `Demangle` is a total function that never fails: on every non-null
input string it returns a non-null result, namely the original string
unchanged (the base-class body returns its argument). -/
theorem demangle_total (s : String) (name : Option String) :
    Symbolizer.Demangle_default (some s) = some s ∧
    (Symbolizer.Demangle_default (some s)).isSome = true ∧
    Symbolizer.Demangle_default name = name :=
  ⟨rfl, rfl, rfl⟩

/-- C4: `SymbolizeCode` fills at most `max_frames` entries (every buffer
entry from index `count` on is untouched), the returned count never exceeds
`max_frames`, and when no backend resolves the address the result is the
normal "unknown" outcome: count 0 with the buffer unchanged (not an error —
the function is total). -/
theorem symbolizeCode_max_frames (backends : List (Nat → List AddressInfo))
    (address : Nat) (buf : List AddressInfo) (max_frames : Nat) :
    (Symbolizer.SymbolizeCode backends address buf max_frames).1 ≤ max_frames ∧
    (Symbolizer.SymbolizeCode backends address buf max_frames).2.drop
        (Symbolizer.SymbolizeCode backends address buf max_frames).1 =
      buf.drop (Symbolizer.SymbolizeCode backends address buf max_frames).1 ∧
    (backends.all (fun b => (b address).isEmpty) = true →
      Symbolizer.SymbolizeCode backends address buf max_frames = (0, buf)) := by
  unfold Symbolizer.SymbolizeCode
  rcases e : backends.find? (fun b => !(b address).isEmpty) with _ | b
  · simp [e]
  · simp only [e]
    refine ⟨?_, ?_, ?_⟩
    · simp only [Symbolizer.fillFrames, List.length_take]
      omega
    · simp only [Symbolizer.fillFrames]
      exact List.drop_left _ _
    · intro hall
      exfalso
      have hmem := List.mem_of_find?_eq_some e
      have hb := List.find?_some e
      have h2 := List.all_eq_true.mp hall b hmem
      simp [h2] at hb

/-- Witness for C4: a backend with three frames but only two slots allowed,
and the no-backend case. -/
theorem symbolizeCode_max_frames_witness :
    (Symbolizer.SymbolizeCode
        [fun _ => [AddressInfo.init, AddressInfo.init, AddressInfo.init]]
        7 [AddressInfo.mk 1 0 0 0 0 0 0, AddressInfo.mk 2 0 0 0 0 0 0] 2).1 ≤ 2 ∧
    Symbolizer.SymbolizeCode [] 7 [] 3 = (0, []) :=
  ⟨(symbolizeCode_max_frames
      [fun _ => [AddressInfo.init, AddressInfo.init, AddressInfo.init]]
      7 [AddressInfo.mk 1 0 0 0 0 0 0, AddressInfo.mk 2 0 0 0 0 0 0] 2).1,
   (symbolizeCode_max_frames [] 7 [] 3).2.2 rfl⟩

/-- C7: whenever `SymbolizeData` reports a match, the filled `DataInfo`
satisfies `start <= address < start + size`, and its `address` field is the
queried address. -/
theorem symbolizeData_range (backends : List (List (String × Nat × Nat)))
    (address : Nat) (info : DataInfo)
    (hfound : Symbolizer.SymbolizeData backends address = some info) :
    info.start ≤ address ∧ address < info.start + info.size ∧
      info.address = address := by
  obtain ⟨symbols, hmem, hsym⟩ := List.exists_of_findSome?_eq_some hfound
  unfold Symbolizer.Backend.SymbolizeData at hsym
  rcases e : symbols.find?
      (fun sym => decide (sym.2.1 ≤ address ∧ address < sym.2.1 + sym.2.2)) with _ | sym
  · rw [e] at hsym; simp at hsym
  · rw [e] at hsym
    simp only [Option.map_some'] at hsym
    have hps := List.find?_some e
    simp only [decide_eq_true_eq] at hps
    have hrange := hps
    have hinfo := Option.some.inj hsym
    subst hinfo
    exact ⟨hrange.1, hrange.2, rfl⟩

/-- Witness for C7: one backend whose table owns addresses 10..13, queried
at 12. -/
theorem symbolizeData_range_witness :
    Symbolizer.SymbolizeData [[("g", 10, 4)]] 12 = some ⟨12, "", 0, "g", 10, 4⟩ ∧
    (10 : Nat) ≤ 12 ∧ (12 : Nat) < 10 + 4 ∧ (12 : Nat) = 12 := by
  have h : Symbolizer.SymbolizeData [[("g", 10, 4)]] 12 =
      some ⟨12, "", 0, "g", 10, 4⟩ := rfl
  have h2 := symbolizeData_range [[("g", 10, 4)]] 12 ⟨12, "", 0, "g", 10, 4⟩ h
  exact ⟨h, h2⟩

/-- Modelled from the spec (the sandboxing implementation is not under
`src/`): the observable state of an attached external-process backend —
whether a helper process is attached and whether it is still alive. -/
structure ExternalBackend where
  alive : Bool
deriving DecidableEq, Repr

/-- Modelled from the spec: the facade state relevant to the external
backend; `none` when no external backend is attached. -/
structure SymbolizerState where
  external : Option ExternalBackend
deriving DecidableEq, Repr

def SymbolizerState.IsExternalAvailable (st : SymbolizerState) : Bool :=
  match st.external with
  | some e => e.alive
  | none => false

/-- The operations a caller may perform on the facade after construction. -/
inductive SymOp where
  | symbolizeCode (address : Nat)
  | symbolizeData (address : Nat)
  | flush
  | demangle
  | helperDied
  | prepareForSandboxing
deriving DecidableEq, Repr

/-- Modelled from the spec: how each operation affects the external backend.
`PrepareForSandboxing` terminates the helper process; a dead helper is never
auto-restarted (`helperDied` is sticky); no other operation revives it. -/
def SymbolizerState.step (st : SymbolizerState) (op : SymOp) : SymbolizerState :=
  match op with
  | .prepareForSandboxing => ⟨st.external.map (fun _ => ⟨false⟩)⟩
  | .helperDied => ⟨st.external.map (fun _ => ⟨false⟩)⟩
  | _ => st

def SymbolizerState.PrepareForSandboxing (st : SymbolizerState) : SymbolizerState :=
  st.step .prepareForSandboxing

def SymbolizerState.run (st : SymbolizerState) (ops : List SymOp) : SymbolizerState :=
  ops.foldl SymbolizerState.step st

theorem step_keeps_unavailable (st : SymbolizerState) (op : SymOp)
    (h : st.IsExternalAvailable = false) :
    (st.step op).IsExternalAvailable = false := by
  cases op <;>
    simp_all [SymbolizerState.step, SymbolizerState.IsExternalAvailable] <;>
    rcases st.external with _ | e <;> simp_all

theorem prepare_unavailable (st : SymbolizerState) :
    st.PrepareForSandboxing.IsExternalAvailable = false := by
  rcases st with ⟨_ | e⟩ <;>
    simp [SymbolizerState.PrepareForSandboxing, SymbolizerState.step,
      SymbolizerState.IsExternalAvailable]

/-- C5: after `PrepareForSandboxing()`, `IsExternalAvailable()` reports false,
and it keeps reporting false after any sequence of subsequent operations (the
helper is never restarted); the base-class `IsExternalAvailable` body likewise
returns false. -/
theorem prepareForSandboxing_disables_external (st : SymbolizerState)
    (ops : List SymOp) :
    st.PrepareForSandboxing.IsExternalAvailable = false ∧
    (st.PrepareForSandboxing.run ops).IsExternalAvailable = false ∧
    Symbolizer.IsExternalAvailable_default = false := by
  refine ⟨prepare_unavailable st, ?_, rfl⟩
  have h0 := prepare_unavailable st
  generalize st.PrepareForSandboxing = st1 at h0 ⊢
  induction ops generalizing st1 with
  | nil => exact h0
  | cons op ops ih =>
    exact ih (st1.step op) (step_keeps_unavailable st1 op h0)

/-- Modelled from the spec (the lifecycle implementation is not under
`src/`): one symbolizer instance; `backends` counts the backends attached at
construction. -/
structure SymbolizerInstance where
  id : Nat
  backends : Nat
deriving DecidableEq, Repr

/-- Modelled from the spec: process-wide lifecycle state — the atomic
`symbolizer_` pointer plus counters of observable construction side effects
(instances constructed, helper processes spawned). -/
structure GlobalState where
  symbolizer : Option SymbolizerInstance
  constructed : Nat
  helpersSpawned : Nat
deriving DecidableEq, Repr

/-- Modelled from the spec: `PlatformInit` constructs a fresh instance,
attaching an external-process backend when a helper path is usable. -/
def PlatformInit (st : GlobalState) (path_to_external : Option String) :
    GlobalState × SymbolizerInstance :=
  let inst : SymbolizerInstance :=
    ⟨st.constructed + 1, if path_to_external.isSome then 1 else 0⟩
  (⟨some inst, st.constructed + 1,
    st.helpersSpawned + (if path_to_external.isSome then 1 else 0)⟩, inst)

/-- Modelled from the spec: `Symbolizer::Init` — if an instance already
exists, return it unchanged; otherwise construct one via `PlatformInit` and
store it. -/
def Symbolizer.Init (st : GlobalState) (path_to_external : Option String) :
    GlobalState × SymbolizerInstance :=
  match st.symbolizer with
  | some inst => (st, inst)
  | none => PlatformInit st path_to_external

/-- Modelled from the spec: `Symbolizer::Disable` — same idempotency rule,
but a fresh instance gets zero backends and spawns no helper. -/
def Symbolizer.Disable (st : GlobalState) : GlobalState × SymbolizerInstance :=
  match st.symbolizer with
  | some inst => (st, inst)
  | none =>
    (⟨some ⟨st.constructed + 1, 0⟩, st.constructed + 1, st.helpersSpawned⟩,
      ⟨st.constructed + 1, 0⟩)

/-- C6: `Init` (and likewise `Disable`) is idempotent: once an instance
exists, any further `Init` or `Disable` call returns that same instance and
leaves the global state — including the constructed-instance and
spawned-helper counters — completely unchanged. -/
theorem init_disable_idempotent (st : GlobalState) (p q : Option String) :
    Symbolizer.Init (Symbolizer.Init st p).1 q = Symbolizer.Init st p ∧
    Symbolizer.Disable (Symbolizer.Init st p).1 = Symbolizer.Init st p ∧
    Symbolizer.Disable (Symbolizer.Disable st).1 = Symbolizer.Disable st ∧
    Symbolizer.Init (Symbolizer.Disable st).1 q = Symbolizer.Disable st := by
  rcases h : st.symbolizer with _ | inst <;>
    simp [Symbolizer.Init, Symbolizer.Disable, PlatformInit, h]

/-- Modelled from the spec: the candidate instance thread `tid` builds before
attempting the publish-once compare-and-swap in `GetOrInit`. -/
def candidate (tid : Nat) : SymbolizerInstance := ⟨tid, 0⟩

/-- Modelled from the spec: the race state — the atomic `symbolizer_` pointer
and the candidates losers have discarded. -/
structure RaceState where
  published : Option SymbolizerInstance
  discarded : List SymbolizerInstance
deriving DecidableEq, Repr

/-- Modelled from the spec: one thread's `GetOrInit` at its atomic
compare-and-swap: the first successful publish wins; a loser discards its
candidate and adopts the winner's instance. -/
def GetOrInitStep (st : RaceState) (tid : Nat) : RaceState × SymbolizerInstance :=
  match st.published with
  | none => (⟨some (candidate tid), st.discarded⟩, candidate tid)
  | some winner => (⟨some winner, candidate tid :: st.discarded⟩, winner)

/-- Run the threads' compare-and-swaps in schedule order, collecting each
thread's returned instance. -/
def GetOrInitRun (st : RaceState) (tids : List Nat) :
    RaceState × List SymbolizerInstance :=
  match tids with
  | [] => (st, [])
  | t :: rest =>
    let s1 := GetOrInitStep st t
    let s2 := GetOrInitRun s1.1 rest
    (s2.1, s1.2 :: s2.2)

/-- N threads race `GetOrInit` from the uninitialized state. -/
def GetOrInitRace (tids : List Nat) : RaceState × List SymbolizerInstance :=
  GetOrInitRun ⟨none, []⟩ tids

theorem getOrInitRun_published (tids : List Nat) (st : RaceState)
    (w : SymbolizerInstance) (h : st.published = some w) :
    (GetOrInitRun st tids).1.published = some w ∧
    (GetOrInitRun st tids).2 = tids.map (fun _ => w) ∧
    (GetOrInitRun st tids).1.discarded.length =
      tids.length + st.discarded.length := by
  induction tids generalizing st with
  | nil => simpa [GetOrInitRun] using h
  | cons t rest ih =>
    have hstep : GetOrInitStep st t = (⟨some w, candidate t :: st.discarded⟩, w) := by
      simp [GetOrInitStep, h]
    have := ih ⟨some w, candidate t :: st.discarded⟩ rfl
    simp [GetOrInitRun, hstep, this.1, this.2.1, this.2.2]
    omega

/-- C8: when N threads race `GetOrInit` with no prior `Init`, exactly one
instance is published — the first thread's candidate — every thread receives
that same instance, and each of the other N-1 candidates is discarded, not
leaked (losers never publish). -/
theorem getOrInit_race_single_winner (t : Nat) (rest : List Nat) :
    (GetOrInitRace (t :: rest)).1.published = some (candidate t) ∧
    (GetOrInitRace (t :: rest)).2 = (t :: rest).map (fun _ => candidate t) ∧
    (GetOrInitRace (t :: rest)).1.discarded.length = rest.length := by
  have hstep : GetOrInitStep ⟨none, []⟩ t =
      (⟨some (candidate t), []⟩, candidate t) := rfl
  have hrun := getOrInitRun_published rest ⟨some (candidate t), []⟩
    (candidate t) rfl
  refine ⟨?_, ?_, ?_⟩ <;>
    simp [GetOrInitRace, GetOrInitRun, hstep, hrun.1, hrun.2.1, hrun.2.2]

end Sanitizer
